import Mathlib

/-!
Shallow embedding of the pympeg graph model and compiler
(src/pympeg/_filter.py and src/pympeg/_util.py), together with proofs
of the specified properties of the command-line compiler.

The node classes (`_node.py`), the registry (`_builder.py`), the
exception classes (`_exceptions.py`) and the helper
`get_str_from_global` are imported by `_filter.py` but are not part of
the sources; every definition standing in for one of them carries a
doc comment starting with `Modelled from the spec:`.  Everything else
is translated directly from the Python source.
-/

namespace Pympeg

/-- Modelled from the spec: a Label is a string identifier naming a
connection point between nodes (`_node.py` is absent from the sources). -/
structure Label where
  label : String
  deriving DecidableEq, Repr

/-- Modelled from the spec: an InputNode holds a source `name` and the
0-based `index` among inputs, assigned from the registry counter. -/
structure InputNode where
  name : String
  index : Nat
  deriving DecidableEq, Repr

/-- Modelled from the spec: `InputNode` produces an implicit output
identified by its index-based stream reference, e.g. `0:v`. -/
def InputNode.outputs (n : InputNode) : String :=
  toString n.index ++ ":v"

/-- Modelled from the spec: a FilterNode holds an ordered list of input
Labels, a filter name, an insertion-ordered parameter mapping and one
output Label. -/
structure FilterNode where
  inputs : List Label
  filter : String
  params : List (String × String)
  output : Label
  deriving DecidableEq, Repr

/-- Modelled from the spec: bracketed rendering of a label, as it appears
inside the filter-graph expression (`[0:v]`, `[v1]`, ...). -/
def Label.bracketed (l : Label) : String :=
  "[" ++ l.label ++ "]"

/-- Modelled from the spec: `node.in_label` is the bracketed rendering of
the input labels of the node, concatenated. -/
def FilterNode.in_label (n : FilterNode) : String :=
  String.join (n.inputs.map Label.bracketed)

/-- Modelled from the spec: `node.out_label` is the bracketed rendering of
the single output label of the node. -/
def FilterNode.out_label (n : FilterNode) : String :=
  n.output.bracketed

/-- Modelled from the spec: a GlobalNode holds ordered input Labels,
ordered output Labels and a free-form argument string. -/
structure GlobalNode where
  inputs : List Label
  outputs : List Label
  args : String
  deriving DecidableEq, Repr

/-- Modelled from the spec: an OptionNode is a command-line flag/value
pair (tag and name, either of which may be the Python `None`) plus an
optional output label for bookkeeping. -/
structure OptionNode where
  tag : Option String
  name : Option String
  output : Option Label
  deriving DecidableEq, Repr

/-- Modelled from the spec: an OutputNode holds a destination `name` and
the ordered list of input Labels to be mapped into that destination. -/
structure OutputNode where
  name : String
  inputs : List Label
  deriving DecidableEq, Repr

/-- The five node variants that can populate the registry. -/
inductive Node where
  | inp (n : InputNode)
  | filt (n : FilterNode)
  | out (n : OutputNode)
  | glob (n : GlobalNode)
  | opt (n : OptionNode)
  deriving DecidableEq, Repr

def Node.asInput : Node → Option InputNode
  | .inp n => some n
  | _ => none

def Node.asFilter : Node → Option FilterNode
  | .filt n => some n
  | _ => none

def Node.asOutput : Node → Option OutputNode
  | .out n => some n
  | _ => none

def Node.asGlobal : Node → Option GlobalNode
  | .glob n => some n
  | _ => none

def Node.asOption : Node → Option OptionNode
  | .opt n => some n
  | _ => none

/-- A dynamic Python value as it can be passed to the builder functions:
one constructor per kind the source code dispatches on.  `pynone` is the
Python `None`; `intv` stands for any value of an unrecognized type. -/
inductive Value where
  | label (l : Label)
  | str (s : String)
  | inputN (n : InputNode)
  | filterN (n : FilterNode)
  | globalN (n : GlobalNode)
  | outputN (n : OutputNode)
  | optionN (n : OptionNode)
  | vlist (vs : List Value)
  | pynone
  | intv (i : Int)

/-- Modelled from the spec: the exception classes of the absent
`_exceptions.py` (TypeMissing, FilterParamsMissing, InputParamsMissing,
OutputNodeMissingInRun), plus the IndexError a Python subscript on an
empty list raises. -/
inductive Err where
  | typeMissing
  | filterParamsMissing
  | inputParamsMissing
  | outputNodeMissingInRun
  | indexError
  deriving DecidableEq, Repr

/-- Modelled from the spec: the registry (`Stream` of the absent
`_builder.py`) is the ordered sequence of created nodes plus the running
counter of input nodes. -/
structure Stream where
  graph : List Node
  count : Nat
  deriving Repr

/-- Modelled from the spec: `add` appends a node to the ordered sequence. -/
def Stream.add (s : Stream) (n : Node) : Stream :=
  { s with graph := s.graph ++ [n] }

/-- Embeds the Python join of a list of strings into one string. -/
def strJoin : List String → String
  | [] => ""
  | s :: rest => s ++ strJoin rest

/-- Embeds Python `"%s" % v` applied to an `Option String`: `None` prints
as the text `None`. -/
def pyStr : Option String → String
  | none => "None"
  | some s => s

/-- Embeds `_util.get_str_from_params`: first parameter as `k=v`, every
following parameter as `:k=v`, joined.  The source indexes `keys[0]`,
so the empty mapping (unreachable through FilterNode construction,
which requires at least one parameter) is given the empty string. -/
def get_str_from_params (params : List (String × String)) : String :=
  match params with
  | [] => ""
  | (k, v) :: rest =>
      k ++ "=" ++ v ++ strJoin (rest.map fun kv => ":" ++ kv.1 ++ "=" ++ kv.2)

/-- Embeds `_util.get_str_from_filter`:
`"%s %s=%s %s;" % (node.in_label, node.filter, get_str_from_params(node.params), node.out_label)`. -/
def get_str_from_filter (node : FilterNode) : String :=
  node.in_label ++ " " ++ node.filter ++ "=" ++ get_str_from_params node.params
    ++ " " ++ node.out_label ++ ";"

/-- Modelled from the spec: `get_str_from_global` is imported by
`_filter.py` but absent from `_util.py`; per the spec a GlobalNode is
emitted as its bracketed input labels concatenated, a space, its
free-form argument string, a space, its bracketed output labels
concatenated, and a terminating `;`. -/
def get_str_from_global (node : GlobalNode) : String :=
  strJoin (node.inputs.map Label.bracketed) ++ " " ++ node.args ++ " "
    ++ strJoin (node.outputs.map Label.bracketed) ++ ";"

/-- Embeds Python `str.replace(";", "")`: removes every `;` character. -/
def replaceSemicolon (s : String) : String :=
  ⟨s.data.filter fun c => c ≠ ';'⟩

/-- Embeds `_filter._check_arg_type`: the loop body unconditionally
breaks after the first element, so only the first argument is
inspected; an empty argument list leaves the flag `False`.  The
accepted isinstance checks are InputNode, OptionNode, FilterNode,
GlobalNode, Label and list. -/
def _check_arg_type (args : List Value) : Bool :=
  match args with
  | [] => false
  | a :: _ =>
      match a with
      | .inputN _ => true
      | .optionN _ => true
      | .filterN _ => true
      | .globalN _ => true
      | .label _ => true
      | .vlist _ => true
      | _ => false

/-- Embeds `_filter._get_label_param`; the subscripts `value[0]` and the
attribute `value.outputs` of the absent `_node.py` follow the
label-derivation precedence of the spec: a FilterNode yields its declared output
Label, an InputNode a Label from its index-based stream reference, a
GlobalNode its first declared output Label (a Python `[0]` on an empty
list raises IndexError). -/
def _get_label_param (value : Value) : Except Err Label :=
  match value with
  | .label l => .ok l
  | .str s => .ok ⟨s⟩
  | .filterN n => .ok n.output
  | .inputN n => .ok ⟨n.outputs⟩
  | .globalN n =>
      match n.outputs.head? with
      | some l => .ok l
      | none => .error .indexError
  | _ => .error .typeMissing

/-- The InputNode sub-sequence of the graph, in original order. -/
def inputNodes (graph : List Node) : List InputNode :=
  graph.filterMap Node.asInput

/-- The OptionNode sub-sequence of the graph, in original order. -/
def optionNodes (graph : List Node) : List OptionNode :=
  graph.filterMap Node.asOption

/-- The FilterNode sub-sequence of the graph, in original order. -/
def filterNodes (graph : List Node) : List FilterNode :=
  graph.filterMap Node.asFilter

/-- The GlobalNode sub-sequence of the graph, in original order. -/
def globalNodes (graph : List Node) : List GlobalNode :=
  graph.filterMap Node.asGlobal

/-- The OutputNode sub-sequence of the graph, in original order. -/
def outputNodes (graph : List Node) : List OutputNode :=
  graph.filterMap Node.asOutput

/-- Embeds `_filter._get_nodes_from_graph`: one pass over the graph
appending each node to the list of its variant, returning the five
lists (input, option, filter, global, output). -/
def _get_nodes_from_graph (graph : List Node) :
    List InputNode × List OptionNode × List FilterNode × List GlobalNode × List OutputNode :=
  (inputNodes graph, optionNodes graph, filterNodes graph, globalNodes graph, outputNodes graph)

/-- Embeds `_filter._no_filter_command`: `cmd`, `" -y"`, one
`" -i %s "` per input node, one `" %s "` per output node, joined. -/
def _no_filter_command (input_nodes : List InputNode) (output_nodes : List OutputNode)
    (cmd : String) : String :=
  cmd ++ " -y"
    ++ strJoin (input_nodes.map fun inp => " -i " ++ inp.name ++ " ")
    ++ strJoin (output_nodes.map fun out => " " ++ out.name ++ " ")

/-- The two strings appended for one input label of one output node:
a map flag holding the bracketed quoted label, followed by the
destination name padded with spaces. -/
def mapSegments (out : OutputNode) : List String :=
  out.inputs.map fun inp => " -map \"[" ++ inp.label ++ "]\"" ++ " " ++ out.name ++ " "

/-- Embeds `_filter._get_command_from_graph`.  With no filter nodes it
returns `_no_filter_command` (called with its default `cmd="ffmpeg"`);
otherwise `filter_nodes.pop()` removes the last filter node, and the
pieces are appended in source order: `cmd`, inputs, options,
the overwrite flag with the filter-complex opening quote, the
remaining filter nodes, the global
nodes, the last filter node with every `;` removed
(`.replace(";", "")`), the closing quote, and one map/name pair per
input label of each output node. -/
def _get_command_from_graph (graph : List Node) (cmd : String) : String :=
  match (filterNodes graph).getLast? with
  | none => _no_filter_command (inputNodes graph) (outputNodes graph) "ffmpeg"
  | some last_filter_node =>
      cmd
        ++ strJoin ((inputNodes graph).map fun inp => " -i " ++ inp.name ++ " ")
        ++ strJoin ((optionNodes graph).map fun opt => " " ++ pyStr opt.tag ++ " " ++ pyStr opt.name)
        ++ " -y -filter_complex \""
        ++ strJoin ((filterNodes graph).dropLast.map get_str_from_filter)
        ++ strJoin ((globalNodes graph).map get_str_from_global)
        ++ replaceSemicolon (get_str_from_filter last_filter_node)
        ++ "\""
        ++ strJoin ((outputNodes graph).map fun out => strJoin (mapSegments out))

/-- Converts a Python list of caller values to labels in order, the way
the builder loops `for inp in inputs: node.add_input(_get_label_param(inp))`. -/
def labelsOf (vs : List Value) : Except Err (List Label) :=
  vs.mapM _get_label_param

/-- The keyword arguments of the `filter` builder: the special `inputs`
entry, and the FilterNode construction arguments (filter name,
parameter mapping, explicit output label). -/
structure FilterKwargs where
  inputs : Option Value
  filter : Option String
  params : List (String × String)
  output : Option Label

/-- Embeds Python `len(kwargs) == 0` for the `filter` builder. -/
def FilterKwargs.isEmpty (kw : FilterKwargs) : Bool :=
  kw.inputs.isNone && kw.filter.isNone && kw.params.isEmpty && kw.output.isNone

/-- Modelled from the spec: `FilterNode(**kwargs)` of the absent
`_node.py` — created with required named parameters, fails to
construct if no parameters are supplied; the single output label
defaults to an auto-generated one (the source draws random letters, so
the fresh label is passed explicitly here). -/
def mkFilterNode (kw : FilterKwargs) (fresh : Label) : Except Err FilterNode :=
  if kw.params.isEmpty then .error .filterParamsMissing
  else .ok { inputs := [], filter := kw.filter.getD "", params := kw.params,
             output := kw.output.getD fresh }

/-- Embeds `_filter.input`: the positional arguments are ignored; a
missing name raises InputParamsMissing; otherwise an InputNode with the
current counter as index is appended and the counter incremented. -/
def input (args : List Value) (name : Option String) (s : Stream) :
    Except Err (InputNode × Stream) :=
  match args, name with
  | _, none => .error .inputParamsMissing
  | _, some nm =>
      let node : InputNode := { name := nm, index := s.count }
      .ok (node, { graph := s.graph ++ [Node.inp node], count := s.count + 1 })

/-- Embeds `_filter.filter`: raises TypeMissing unless `_check_arg_type`
passes on the positional arguments, raises FilterParamsMissing on empty
keyword arguments, takes the inputs from the `inputs` keyword if given
and from `args[0]` otherwise, constructs the FilterNode, adds one input
label per input value, and appends the node. -/
def filter (args : List Value) (kw : FilterKwargs) (fresh : Label) (s : Stream) :
    Except Err (FilterNode × Stream) :=
  if _check_arg_type args = false then .error .typeMissing
  else if kw.isEmpty then .error .filterParamsMissing
  else
    let inputs : Value :=
      match kw.inputs with
      | some v => v
      | none => args.headD Value.pynone
    match mkFilterNode kw fresh with
    | .error e => .error e
    | .ok node0 =>
        let labelsE :=
          match inputs with
          | .vlist vs => labelsOf vs
          | v => (_get_label_param v).map fun l => [l]
        match labelsE with
        | .error e => .error e
        | .ok labels =>
            let node := { node0 with inputs := labels }
            .ok (node, s.add (Node.filt node))

/-- Embeds `_filter.output`: raises TypeMissing unless `_check_arg_type`
passes; returns Python `None` without creating or appending anything if
the `name` keyword is absent; otherwise builds an OutputNode from
`args[0]` and appends it. -/
def output (args : List Value) (name : Option String) (s : Stream) :
    Except Err (Option OutputNode × Stream) :=
  if _check_arg_type args = false then .error .typeMissing
  else
    match name with
    | none => .ok (none, s)
    | some nm =>
        let labelsE :=
          match args.headD Value.pynone with
          | .vlist vs => labelsOf vs
          | v => (_get_label_param v).map fun l => [l]
        match labelsE with
        | .error e => .error e
        | .ok labels =>
            let node : OutputNode := { name := nm, inputs := labels }
            .ok (some node, s.add (Node.out node))

/-- Embeds `_filter.arg`: constructs the GlobalNode first, then derives
the input labels from `inputs` when it is not `None` and from `caller`
otherwise, then derives the output labels from `outputs` (a non-list
`outputs` — including the default `None` — goes through
`_get_label_param` directly), and finally appends the node. -/
def arg (caller : Value) (args : String) (outputs : Value) (inputs : Value) (s : Stream) :
    Except Err (GlobalNode × Stream) :=
  let node0 : GlobalNode := { inputs := [], outputs := [], args := args }
  let inLabelsE :=
    match inputs with
    | .pynone =>
        match caller with
        | .vlist vs => labelsOf vs
        | v => (_get_label_param v).map fun l => [l]
    | .vlist vs => labelsOf vs
    | v => (_get_label_param v).map fun l => [l]
  match inLabelsE with
  | .error e => .error e
  | .ok inLabels =>
      let outLabelsE :=
        match outputs with
        | .vlist vs => labelsOf vs
        | v => (_get_label_param v).map fun l => [l]
      match outLabelsE with
      | .error e => .error e
      | .ok outLabels =>
          let node := { node0 with inputs := inLabels, outputs := outLabels }
          .ok (node, s.add (Node.glob node))

/-- Embeds `_filter.option`: converts the `output` keyword (default
`None`) to labels — a non-list value goes through `_get_label_param`
directly — then builds the OptionNode and appends it.  The converted
list is bound but unused by the source; the spec-modelled OptionNode
keeps its head as the bookkeeping output label. -/
def option (_args : List Value) (tag : Option String) (name : Option String)
    (output : Value) (s : Stream) : Except Err (OptionNode × Stream) :=
  let outputsE :=
    match output with
    | .vlist vs => labelsOf vs
    | v => (_get_label_param v).map fun l => [l]
  match outputsE with
  | .error e => .error e
  | .ok outs =>
      let node : OptionNode := { tag := tag, name := name, output := outs.head? }
      .ok (node, s.add (Node.opt node))

/-- Embeds `_filter.run`: raises OutputNodeMissingInRun unless the
caller is an OutputNode; otherwise reads the graph and compiles it with
the default command name.  The external process invocation is outside
the embedding, so the compiled command string is returned. -/
def run (caller : Value) (s : Stream) : Except Err String :=
  match caller with
  | .outputN _ => .ok (_get_command_from_graph s.graph "ffmpeg")
  | _ => .error .outputNodeMissingInRun

/-- Whether a dynamic value is an OutputNode (the `isinstance` check of
`run`). -/
def Value.isOutputNode : Value → Bool
  | .outputN _ => true
  | _ => false

/-! ## Helper lemmas -/

theorem strJoin_append (a b : List String) :
    strJoin (a ++ b) = strJoin a ++ strJoin b := by
  induction a with
  | nil => simp [strJoin]
  | cons s rest ih => simp [strJoin, ih, String.append_assoc]

theorem count_semi_strJoin (L : List String)
    (h : ∀ s ∈ L, s.data.count ';' = 1) :
    (strJoin L).data.count ';' = L.length := by
  induction L with
  | nil => rfl
  | cons s rest ih =>
      have hs : s.data.count ';' = 1 := h s (by simp)
      have hrest : ∀ x ∈ rest, x.data.count ';' = 1 := fun x hx => h x (by simp [hx])
      simp [strJoin, String.data_append, List.count_append, hs, ih hrest]
      omega

theorem get_str_from_filter_data (f : FilterNode) :
    (get_str_from_filter f).data =
      (f.in_label ++ " " ++ f.filter ++ "=" ++ get_str_from_params f.params
        ++ " " ++ f.out_label).data ++ [';'] := by
  simp [get_str_from_filter, String.data_append]

theorem count_semi_prefix_zero (f : FilterNode)
    (h : (get_str_from_filter f).data.count ';' = 1) :
    ((get_str_from_filter f).data.dropLast).count ';' = 0 := by
  rw [get_str_from_filter_data] at h ⊢
  rw [List.dropLast_concat]
  simp [String.data_append, List.count_append] at h ⊢
  omega

theorem replaceSemicolon_eq_dropLast (f : FilterNode)
    (h : (get_str_from_filter f).data.count ';' = 1) :
    replaceSemicolon (get_str_from_filter f) = ⟨(get_str_from_filter f).data.dropLast⟩ := by
  have h0 := count_semi_prefix_zero f h
  have hnot : ';' ∉ (get_str_from_filter f).data.dropLast := List.count_eq_zero.mp h0
  unfold replaceSemicolon
  rw [get_str_from_filter_data] at hnot ⊢
  rw [List.dropLast_concat] at hnot ⊢
  rw [List.filter_append]
  have hself : List.filter (fun c => decide (c ≠ ';'))
      (f.in_label ++ " " ++ f.filter ++ "=" ++ get_str_from_params f.params
        ++ " " ++ f.out_label).data
      = (f.in_label ++ " " ++ f.filter ++ "=" ++ get_str_from_params f.params
        ++ " " ++ f.out_label).data := by
    refine List.filter_eq_self.mpr fun a ha => ?_
    simp only [decide_eq_true_eq]
    exact fun e => hnot (e ▸ ha)
  rw [hself]
  simp

theorem map_filterMap_sublist {α : Type} (f : Node → Option α) (ctor : α → Node)
    (hf : ∀ n a, f n = some a → ctor a = n) (g : List Node) :
    ((g.filterMap f).map ctor).Sublist g := by
  induction g with
  | nil => simp
  | cons hd tl ih =>
      cases hfa : f hd with
      | none =>
          simp only [List.filterMap_cons, hfa]
          exact ih.cons hd
      | some a =>
          simp only [List.filterMap_cons, hfa, List.map_cons]
          rw [hf hd a hfa]
          exact ih.cons₂ hd

theorem nodes_length_sum (g : List Node) :
    (inputNodes g).length + (optionNodes g).length + (filterNodes g).length
      + (globalNodes g).length + (outputNodes g).length = g.length := by
  induction g with
  | nil => rfl
  | cons hd tl ih =>
      cases hd <;>
        simp only [inputNodes, optionNodes, filterNodes, globalNodes, outputNodes,
          List.filterMap_cons, Node.asInput, Node.asOption, Node.asFilter,
          Node.asGlobal, Node.asOutput, List.length_cons] at ih ⊢ <;>
        omega

/-! ## Claim theorems -/

/-- Claim C7: the partition step splits the node sequence into five
sub-sequences (input, option, filter, global, output), each preserving
the original relative order of its members, and the five lengths sum to
the length of the whole sequence. -/
theorem C7_partition_invariant (g : List Node) :
    ((_get_nodes_from_graph g).1.map Node.inp).Sublist g
    ∧ ((_get_nodes_from_graph g).2.1.map Node.opt).Sublist g
    ∧ ((_get_nodes_from_graph g).2.2.1.map Node.filt).Sublist g
    ∧ ((_get_nodes_from_graph g).2.2.2.1.map Node.glob).Sublist g
    ∧ ((_get_nodes_from_graph g).2.2.2.2.map Node.out).Sublist g
    ∧ (_get_nodes_from_graph g).1.length + (_get_nodes_from_graph g).2.1.length
        + (_get_nodes_from_graph g).2.2.1.length + (_get_nodes_from_graph g).2.2.2.1.length
        + (_get_nodes_from_graph g).2.2.2.2.length = g.length := by
  refine ⟨?_, ?_, ?_, ?_, ?_, ?_⟩
  · exact map_filterMap_sublist Node.asInput Node.inp
      (fun n a h => by cases n <;> simp_all [Node.asInput]) g
  · exact map_filterMap_sublist Node.asOption Node.opt
      (fun n a h => by cases n <;> simp_all [Node.asOption]) g
  · exact map_filterMap_sublist Node.asFilter Node.filt
      (fun n a h => by cases n <;> simp_all [Node.asFilter]) g
  · exact map_filterMap_sublist Node.asGlobal Node.glob
      (fun n a h => by cases n <;> simp_all [Node.asGlobal]) g
  · exact map_filterMap_sublist Node.asOutput Node.out
      (fun n a h => by cases n <;> simp_all [Node.asOutput]) g
  · exact nodes_length_sum g

/-- Claim C2: a graph with no FilterNodes always compiles through the
direct path, whatever OptionNodes and GlobalNodes it contains: the
program name, the forced-overwrite flag, one `-i name` segment per
InputNode in order, then one name segment per OutputNode in order,
with no filter graph and no map or option or global content. -/
theorem C2_direct_path (g : List Node) (cmd : String) (h : filterNodes g = []) :
    _get_command_from_graph g cmd =
      "ffmpeg" ++ " -y"
        ++ strJoin ((inputNodes g).map fun inp => " -i " ++ inp.name ++ " ")
        ++ strJoin ((outputNodes g).map fun out => " " ++ out.name ++ " ") := by
  unfold _get_command_from_graph
  rw [h]
  rfl

/-- Witness for C2 on a concrete graph holding an InputNode, an
OptionNode, a GlobalNode and an OutputNode but no FilterNode. -/
theorem C2_direct_path_witness :
    _get_command_from_graph
        [Node.inp ⟨"a.mp4", 0⟩, Node.opt ⟨some "-ss", some "10", none⟩,
         Node.glob ⟨[], [⟨"g"⟩], "anull"⟩, Node.out ⟨"out.mp4", [⟨"g"⟩]⟩] "prog"
      = "ffmpeg -y -i a.mp4  out.mp4 " :=
  C2_direct_path
    [Node.inp ⟨"a.mp4", 0⟩, Node.opt ⟨some "-ss", some "10", none⟩,
     Node.glob ⟨[], [⟨"g"⟩], "anull"⟩, Node.out ⟨"out.mp4", [⟨"g"⟩]⟩] "prog" rfl

/-- Claim C6: whenever the caller value passed to `run` is not an
OutputNode, `run` fails with OutputNodeMissingInRun, independently of
the registry contents — so before any graph read or compilation. -/
theorem C6_run_requires_output_node (v : Value) (s : Stream)
    (h : v.isOutputNode = false) :
    run v s = .error .outputNodeMissingInRun := by
  cases v <;> simp_all [run, Value.isOutputNode]

/-- Witness for C6: `run` called with a FilterNode caller on a nonempty
registry. -/
theorem C6_run_requires_output_node_witness :
    run (Value.filterN ⟨[⟨"0:v"⟩], "scale", [("w", "320")], ⟨"v1"⟩⟩)
        ⟨[Node.inp ⟨"a.mp4", 0⟩], 1⟩
      = .error .outputNodeMissingInRun :=
  C6_run_requires_output_node
    (Value.filterN ⟨[⟨"0:v"⟩], "scale", [("w", "320")], ⟨"v1"⟩⟩)
    ⟨[Node.inp ⟨"a.mp4", 0⟩], 1⟩ rfl

/-- Claim C10: if the positional caller argument of the output builder
passes the type check but no `name` keyword is supplied, the call
returns Python `None`, appends nothing to the registry and raises no
error. -/
theorem C10_output_without_name (args : List Value) (s : Stream)
    (h : _check_arg_type args = true) :
    output args none s = .ok (none, s) := by
  simp [output, h]

/-- Witness for C10: the output builder called with a Label caller and
no name on a concrete registry. -/
theorem C10_output_without_name_witness :
    output [Value.label ⟨"v1"⟩] none ⟨[Node.inp ⟨"a.mp4", 0⟩], 1⟩
      = .ok (none, ⟨[Node.inp ⟨"a.mp4", 0⟩], 1⟩) :=
  C10_output_without_name [Value.label ⟨"v1"⟩] ⟨[Node.inp ⟨"a.mp4", 0⟩], 1⟩ rfl

/-- Claim C4 (counterexample): the input and option builders do not
validate their caller arguments — called with an unrecognized caller
value (an int), each still creates its node and appends it to the
registry instead of failing with the missing-required-type error. -/
theorem C4_counterexample :
    input [Value.intv 42] (some "a.mp4") ⟨[], 0⟩
      = .ok (⟨"a.mp4", 0⟩, ⟨[Node.inp ⟨"a.mp4", 0⟩], 1⟩)
    ∧ option [Value.intv 42] (some "-t") (some "30") (Value.str "lbl") ⟨[], 0⟩
      = .ok (⟨some "-t", some "30", some ⟨"lbl"⟩⟩,
             ⟨[Node.opt ⟨some "-t", some "30", some ⟨"lbl"⟩⟩], 0⟩) :=
  ⟨rfl, rfl⟩

/-- Claim C4 (amended): only the filter and output builders validate the
caller argument through the type check, failing with the
missing-required-type error before any node is created or appended; the
input and option builders perform no caller validation, and the global
builder rejects an unrecognized non-list caller with the same error
only during label derivation, after its GlobalNode is constructed
(though before it is appended). -/
theorem C4_amended_validation (args : List Value) (kw : FilterKwargs) (fresh : Label)
    (nm : String) (s : Stream) (i : Int) (hbad : _check_arg_type args = false) :
    filter args kw fresh s = .error .typeMissing
    ∧ output args (some nm) s = .error .typeMissing
    ∧ input args (some nm) s
        = .ok (⟨nm, s.count⟩, ⟨s.graph ++ [Node.inp ⟨nm, s.count⟩], s.count + 1⟩)
    ∧ arg (Value.intv i) "anull" (Value.str "o") Value.pynone s = .error .typeMissing := by
  refine ⟨?_, ?_, rfl, rfl⟩
  · simp [filter, hbad]
  · simp [output, hbad]

/-- Witness for the amended C4 at a concrete unrecognized caller. -/
theorem C4_amended_validation_witness :
    filter [Value.intv 7] ⟨none, some "scale", [("w", "320")], some ⟨"v1"⟩⟩ ⟨"fr"⟩ ⟨[], 0⟩
        = .error .typeMissing
    ∧ output [Value.intv 7] (some "o.mp4") ⟨[], 0⟩ = .error .typeMissing
    ∧ input [Value.intv 7] (some "o.mp4") ⟨[], 0⟩
        = .ok (⟨"o.mp4", 0⟩, ⟨[Node.inp ⟨"o.mp4", 0⟩], 1⟩)
    ∧ arg (Value.intv 3) "anull" (Value.str "o") Value.pynone ⟨[], 0⟩
        = .error .typeMissing :=
  C4_amended_validation [Value.intv 7] ⟨none, some "scale", [("w", "320")], some ⟨"v1"⟩⟩
    ⟨"fr"⟩ "o.mp4" ⟨[], 0⟩ 3 rfl

theorem intercalate_go_eq (s : String) (l : List String) :
    ∀ acc : String, String.intercalate.go acc s l = acc ++ strJoin (l.map fun y => s ++ y) := by
  induction l with
  | nil => intro acc; simp [String.intercalate.go, strJoin]
  | cons a as ih =>
      intro acc
      rw [String.intercalate.go, ih]
      simp [strJoin, String.append_assoc]

theorem get_str_from_params_intercalate (k v : String) (rest : List (String × String)) :
    get_str_from_params ((k, v) :: rest) =
      String.intercalate ":" (((k, v) :: rest).map fun kv => kv.1 ++ "=" ++ kv.2) := by
  simp only [get_str_from_params, String.intercalate, List.map_cons, intercalate_go_eq,
    List.map_map]
  have hcomp : ((fun y => ":" ++ y) ∘ fun kv : String × String => kv.1 ++ "=" ++ kv.2)
      = fun kv : String × String => ":" ++ kv.1 ++ "=" ++ kv.2 := by
    funext kv
    simp [Function.comp, String.append_assoc]
  rw [hcomp]

/-- One InputNode `a.mp4`, one `scale` FilterNode with parameters
`w=320` and `h=240` reading the `0:v` stream of the input and producing
label `v1`, one OutputNode `out.mp4` mapping `v1`. -/
def scenarioA : List Node :=
  [Node.inp ⟨"a.mp4", 0⟩,
   Node.filt ⟨[⟨"0:v"⟩], "scale", [("w", "320"), ("h", "240")], ⟨"v1"⟩⟩,
   Node.out ⟨"out.mp4", [⟨"v1"⟩]⟩]

/-- Claim C3: a FilterNode with a non-empty parameter mapping serializes
as its input label, a space, `filtername=`, the parameters joined by `:`
in insertion order with no trailing separator, a space, its output
label and the terminating `;`; and on the Scenario A graph the compiled
quoted filter-graph segment of the compiled command is exactly
`[0:v] scale=w=320:h=240 [v1]` with no trailing `;`, followed by a
`-map "[v1]"` segment and `out.mp4`. -/
theorem C3_filter_serialization (f : FilterNode) (k v : String)
    (rest : List (String × String)) (hp : f.params = (k, v) :: rest) :
    get_str_from_filter f =
      f.in_label ++ " " ++ f.filter ++ "="
        ++ String.intercalate ":" (f.params.map fun kv => kv.1 ++ "=" ++ kv.2)
        ++ " " ++ f.out_label ++ ";"
    ∧ _get_command_from_graph scenarioA "ffmpeg"
        = "ffmpeg -i a.mp4  -y -filter_complex \"[0:v] scale=w=320:h=240 [v1]\" -map \"[v1]\" out.mp4 " := by
  constructor
  · rw [get_str_from_filter, hp, get_str_from_params_intercalate]
  · rfl

/-- Witness for C3 on the Scenario A filter node itself. -/
theorem C3_filter_serialization_witness :
    get_str_from_filter ⟨[⟨"0:v"⟩], "scale", [("w", "320"), ("h", "240")], ⟨"v1"⟩⟩
        = "[0:v] scale=w=320:h=240 [v1];"
    ∧ _get_command_from_graph scenarioA "ffmpeg"
        = "ffmpeg -i a.mp4  -y -filter_complex \"[0:v] scale=w=320:h=240 [v1]\" -map \"[v1]\" out.mp4 " :=
  C3_filter_serialization ⟨[⟨"0:v"⟩], "scale", [("w", "320"), ("h", "240")], ⟨"v1"⟩⟩
    "w" "320" [("h", "240")] rfl

/-- Claim C1: on the filter path the last FilterNode in sequence order
is emitted after all other FilterNodes and after all GlobalNode
statements, in the same statement format but with the trailing `;`
stripped, and the FilterNode-attributable part of the quoted
filter-graph string contains exactly N-1 `;` characters for N filter
nodes (each a statement terminator, provided the statements contain no
internal `;`). -/
theorem C1_last_filter_no_semicolon (g : List Node) (cmd : String)
    (fsInit : List FilterNode) (lastF : FilterNode)
    (hfs : filterNodes g = fsInit ++ [lastF])
    (hsemi : ∀ f ∈ filterNodes g, (get_str_from_filter f).data.count ';' = 1) :
    _get_command_from_graph g cmd =
      cmd ++ strJoin ((inputNodes g).map fun inp => " -i " ++ inp.name ++ " ")
        ++ strJoin ((optionNodes g).map fun o => " " ++ pyStr o.tag ++ " " ++ pyStr o.name)
        ++ " -y -filter_complex \""
        ++ strJoin (fsInit.map get_str_from_filter)
        ++ strJoin ((globalNodes g).map get_str_from_global)
        ++ ⟨(get_str_from_filter lastF).data.dropLast⟩
        ++ "\""
        ++ strJoin ((outputNodes g).map fun out => strJoin (mapSegments out))
    ∧ (strJoin (fsInit.map get_str_from_filter)
        ++ (⟨(get_str_from_filter lastF).data.dropLast⟩ : String)).data.count ';'
        = (filterNodes g).length - 1 := by
  have hlast : (filterNodes g).getLast? = some lastF := by
    rw [hfs]; exact List.getLast?_concat fsInit
  have hdrop : (filterNodes g).dropLast = fsInit := by
    rw [hfs]; exact List.dropLast_concat
  have hmemlast : lastF ∈ filterNodes g := by rw [hfs]; simp
  have hstrip := replaceSemicolon_eq_dropLast lastF (hsemi lastF hmemlast)
  constructor
  · simp only [_get_command_from_graph, hlast]
    rw [hdrop, hstrip]
  · have hinit : ∀ s ∈ fsInit.map get_str_from_filter, s.data.count ';' = 1 := by
      intro s hs
      obtain ⟨f, hf, rfl⟩ := List.mem_map.mp hs
      exact hsemi f (by rw [hfs]; exact List.mem_append_left _ hf)
    have h1 := count_semi_strJoin _ hinit
    have h0 := count_semi_prefix_zero lastF (hsemi lastF hmemlast)
    rw [hfs]
    simp only [String.data_append, List.count_append]
    rw [h1, h0]
    simp

def fW1 : FilterNode := ⟨[⟨"0:v"⟩], "scale", [("w", "320"), ("h", "240")], ⟨"v1"⟩⟩

def fW2 : FilterNode := ⟨[⟨"v1"⟩], "crop", [("w", "100")], ⟨"v2"⟩⟩

/-- A concrete graph with two FilterNodes, a GlobalNode between the
filter section and the output, and one OutputNode. -/
def gW : List Node :=
  [Node.inp ⟨"a.mp4", 0⟩, Node.filt fW1, Node.filt fW2,
   Node.glob ⟨[⟨"v2"⟩], [⟨"g"⟩], "anull"⟩, Node.out ⟨"out.mp4", [⟨"g"⟩]⟩]

/-- Witness for C1 on the concrete two-filter graph: the crop statement
(the last filter) appears after the global statement with its trailing
`;` stripped, and the filter-attributable part holds exactly one `;`. -/
theorem C1_last_filter_no_semicolon_witness :
    _get_command_from_graph gW "ffmpeg"
      = "ffmpeg -i a.mp4  -y -filter_complex \"[0:v] scale=w=320:h=240 [v1];[v2] anull [g];[v1] crop=w=100 [v2]\" -map \"[g]\" out.mp4 "
    ∧ (strJoin ([fW1].map get_str_from_filter)
        ++ (⟨(get_str_from_filter fW2).data.dropLast⟩ : String)).data.count ';' = 1 :=
  C1_last_filter_no_semicolon gW "ffmpeg" [fW1] fW2 rfl (by decide)

/-- Claim C5: the compiled filter-path command ends with, for every
OutputNode in order and every one of its input Labels in order, a
bracketed quoted map segment immediately followed by the
destination name of that OutputNode; an OutputNode with M input labels contributes exactly
M such segments, with no deduplication. -/
theorem C5_map_fanout (g : List Node) (cmd : String)
    (fsInit : List FilterNode) (lastF : FilterNode)
    (hfs : filterNodes g = fsInit ++ [lastF]) :
    (∃ pre : String, _get_command_from_graph g cmd =
        pre ++ strJoin ((outputNodes g).map fun out => strJoin (mapSegments out)))
    ∧ (∀ out : OutputNode, (mapSegments out).length = out.inputs.length)
    ∧ (∀ out : OutputNode, ∀ i : Nat, ∀ hi : i < out.inputs.length,
        (mapSegments out).get ⟨i, by simpa [mapSegments] using hi⟩
          = " -map \"[" ++ (out.inputs.get ⟨i, hi⟩).label ++ "]\"" ++ " " ++ out.name ++ " ") := by
  have hlast : (filterNodes g).getLast? = some lastF := by
    rw [hfs]; exact List.getLast?_concat fsInit
  refine ⟨⟨cmd ++ strJoin ((inputNodes g).map fun inp => " -i " ++ inp.name ++ " ")
      ++ strJoin ((optionNodes g).map fun opt => " " ++ pyStr opt.tag ++ " " ++ pyStr opt.name)
      ++ " -y -filter_complex \""
      ++ strJoin ((filterNodes g).dropLast.map get_str_from_filter)
      ++ strJoin ((globalNodes g).map get_str_from_global)
      ++ replaceSemicolon (get_str_from_filter lastF)
      ++ "\"", ?_⟩, ?_, ?_⟩
  · simp only [_get_command_from_graph, hlast]
  · intro out
    simp [mapSegments]
  · intro out i hi
    simp [mapSegments, List.get_eq_getElem, List.getElem_map]

/-- Witness for C5 on the concrete two-filter graph, whose single
OutputNode maps one label. -/
theorem C5_map_fanout_witness :
    (∃ pre : String, _get_command_from_graph gW "ffmpeg" =
        pre ++ strJoin ((outputNodes gW).map fun out => strJoin (mapSegments out)))
    ∧ (∀ out : OutputNode, (mapSegments out).length = out.inputs.length)
    ∧ (∀ out : OutputNode, ∀ i : Nat, ∀ hi : i < out.inputs.length,
        (mapSegments out).get ⟨i, by simpa [mapSegments] using hi⟩
          = " -map \"[" ++ (out.inputs.get ⟨i, hi⟩).label ++ "]\"" ++ " " ++ out.name ++ " ") :=
  C5_map_fanout gW "ffmpeg" [fW1] fW2 rfl

/-- Claim C8 (code bug): calling the global-node builder with no outputs
does not default to an auto-generated output label as the own source
comment states; the default `None` reaches `_get_label_param`, which
raises TypeMissing. -/
theorem C8_arg_default_outputs_raises :
    arg (Value.inputN ⟨"a.mp4", 0⟩) "concat=n=2:v=1:a=1" Value.pynone Value.pynone ⟨[], 0⟩
      = .error .typeMissing := rfl

/-- Claim C9 (code bug): calling the option builder with a tag and a
name but no output label does not append an OptionNode; the default
`None` output reaches `_get_label_param`, which raises TypeMissing. -/
theorem C9_option_default_output_raises :
    option [] (some "-ss") (some "10") Value.pynone ⟨[], 0⟩
      = .error .typeMissing := rfl

end Pympeg
